import Mathlib

/-
Verification of the webpki error-ranking combinator and time parsing.

Shallow embedding of `src/error.rs` and `src/time.rs`. Rust `u64` values
are modelled as `Nat` (every quantity reachable here is far below 2^64:
years are at most 9999, day counts at most a few million, second counts
at most about 3*10^11, so machine overflow cannot occur). Fallible Rust
functions returning `Result<T, Error>` become `Except Error T`; a Rust
`unreachable!()` panic branch is modelled as `Option.none` around the
result, so totality of the `Option` expresses panic freedom.
-/

namespace Webpki

/-- DerTypeId from `src/error.rs`: the DER type named by a `TrailingData` error. -/
inductive DerTypeId where
  | BitString
  | Bool
  | Certificate
  | CertificateExtensions
  | CertificateTbsCertificate
  | CertRevocationList
  | CertRevocationListExtension
  | CrlDistributionPoint
  | CommonNameInner
  | CommonNameOuter
  | DistributionPointName
  | Extension
  | GeneralName
  | RevocationReason
  | Signature
  | SignatureAlgorithm
  | SignedData
  | SubjectPublicKeyInfo
  | Time
  | TrustAnchorV1
  | TrustAnchorV1TbsCertificate
  | U8
  | RevokedCertificate
  | RevokedCertificateExtension
  | RevokedCertEntry
  | IssuingDistributionPoint
deriving DecidableEq

/-- The `Error` enum from `src/error.rs`. -/
inductive Error where
  | BadDer
  | BadDerTime
  | CaUsedAsEndEntity
  | CertExpired
  | CertNotValidForName
  | CertNotValidYet
  | CertRevoked
  | EndEntityUsedAsCa
  | ExtensionValueInvalid
  | InvalidCertValidity
  | InvalidCrlNumber
  | InvalidNetworkMaskConstraint
  | InvalidSerialNumber
  | InvalidCrlSignatureForPublicKey
  | InvalidSignatureForPublicKey
  | IssuerNotCrlSigner
  | MalformedDnsIdentifier
  | MalformedExtensions
  | MalformedNameConstraint
  | MaximumSignatureChecksExceeded
  | NameConstraintViolation
  | PathLenConstraintViolated
  | RequiredEkuNotFound
  | SignatureAlgorithmMismatch
  | TrailingData (id : DerTypeId)
  | UnknownIssuer
  | UnknownRevocationStatus
  | UnsupportedCertVersion
  | UnsupportedCriticalExtension
  | UnsupportedCrlIssuingDistributionPoint
  | UnsupportedCrlVersion
  | UnsupportedDeltaCrl
  | UnsupportedIndirectCrl
  | UnsupportedRevocationReason
  | UnsupportedRevocationReasonsPartitioning
  | UnsupportedCrlSignatureAlgorithm
  | UnsupportedSignatureAlgorithm
  | UnsupportedCrlSignatureAlgorithmForPublicKey
  | UnsupportedSignatureAlgorithmForPublicKey
deriving DecidableEq

/-- Error::rank from `src/error.rs` lines 198-247: a numeric indication of how
specific the error is; higher rank means more useful to an end user. -/
def Error.rank : Error → Nat
  | .CertNotValidYet | .CertExpired => 29
  | .CertNotValidForName => 28
  | .CertRevoked | .UnknownRevocationStatus => 27
  | .InvalidCrlSignatureForPublicKey | .InvalidSignatureForPublicKey => 26
  | .SignatureAlgorithmMismatch => 25
  | .RequiredEkuNotFound => 24
  | .NameConstraintViolation => 23
  | .PathLenConstraintViolated => 22
  | .CaUsedAsEndEntity | .EndEntityUsedAsCa => 21
  | .IssuerNotCrlSigner => 20
  | .InvalidCertValidity => 19
  | .InvalidNetworkMaskConstraint => 18
  | .InvalidSerialNumber => 17
  | .InvalidCrlNumber => 16
  | .UnsupportedCrlSignatureAlgorithmForPublicKey
  | .UnsupportedSignatureAlgorithmForPublicKey => 15
  | .UnsupportedCrlSignatureAlgorithm | .UnsupportedSignatureAlgorithm => 14
  | .UnsupportedCriticalExtension => 13
  | .UnsupportedCertVersion => 13
  | .UnsupportedCrlVersion => 12
  | .UnsupportedDeltaCrl => 11
  | .UnsupportedIndirectCrl => 10
  | .UnsupportedRevocationReason => 9
  | .UnsupportedRevocationReasonsPartitioning => 8
  | .UnsupportedCrlIssuingDistributionPoint => 7
  | .MalformedDnsIdentifier => 6
  | .MalformedNameConstraint => 5
  | .MalformedExtensions | .TrailingData _ => 4
  | .ExtensionValueInvalid => 3
  | .BadDerTime => 2
  | .BadDer => 1
  | .MaximumSignatureChecksExceeded => 0
  | .UnknownIssuer => 0

/-- Error::most_specific from `src/error.rs` lines 185-192: compare the Error
with the new error by rank, returning the higher rank of the two. -/
def Error.most_specific (self new : Error) : Error :=
  if self.rank ≥ new.rank then self else new

/-- The Time type from `src/time.rs`: a count of non-leap seconds since the
start of 1970. -/
structure Time where
  secs : Nat
deriving DecidableEq

/-- Time::from_seconds_since_unix_epoch from `src/time.rs`. -/
def Time.from_seconds_since_unix_epoch (secs : Nat) : Time :=
  ⟨secs⟩

/-- UNIX_EPOCH_YEAR from `src/time.rs`. -/
def UNIX_EPOCH_YEAR : Nat := 1970

/-- days_before_year_ad from `src/time.rs` lines 200-205. -/
def days_before_year_ad (year : Nat) : Nat :=
  (year - 1) * 365 + (year - 1) / 4 - (year - 1) / 100 + (year - 1) / 400

/-- DAYS_BEFORE_UNIX_EPOCH_AD from `src/time.rs` line 226: all the days up to
and including 1969, plus the 477 leap days since AD began. -/
def DAYS_BEFORE_UNIX_EPOCH_AD : Nat := 1969 * 365 + 477

/-- days_before_year_since_unix_epoch from `src/time.rs` lines 186-196. -/
def days_before_year_since_unix_epoch (year : Nat) : Except Error Nat :=
  if year < UNIX_EPOCH_YEAR then .error .BadDerTime
  else .ok (days_before_year_ad year - DAYS_BEFORE_UNIX_EPOCH_AD)

/-- days_in_feb from `src/time.rs` lines 216-222. -/
def days_in_feb (year : Nat) : Nat :=
  if year % 4 = 0 ∧ (year % 100 ≠ 0 ∨ year % 400 = 0) then 29 else 28

/-- days_in_month from `src/time.rs` lines 207-214. The `unreachable!()` arm
is modelled as `none`. -/
def days_in_month (year month : Nat) : Option Nat :=
  match month with
  | 1 | 3 | 5 | 7 | 8 | 10 | 12 => some 31
  | 4 | 6 | 9 | 11 => some 30
  | 2 => some (days_in_feb year)
  | _ => none

/-- time_from_ymdhms_utc from `src/time.rs` lines 138-184. The
`unreachable!()` arm of the month dispatch is modelled as `none`. -/
def time_from_ymdhms_utc (year month day_of_month hours minutes seconds : Nat) :
    Option (Except Error Time) :=
  match days_before_year_since_unix_epoch year with
  | .error e => some (.error e)
  | .ok dby =>
    let feb := days_in_feb year
    let dbm : Option Nat :=
      match month with
      | 1 => some 0
      | 2 => some 31
      | 3 => some (31 + feb)
      | 4 => some (31 + feb + 31)
      | 5 => some (31 + feb + 31 + 30)
      | 6 => some (31 + feb + 31 + 30 + 31)
      | 7 => some (31 + feb + 31 + 30 + 31 + 30)
      | 8 => some (31 + feb + 31 + 30 + 31 + 30 + 31)
      | 9 => some (31 + feb + 31 + 30 + 31 + 30 + 31 + 31)
      | 10 => some (31 + feb + 31 + 30 + 31 + 30 + 31 + 31 + 30)
      | 11 => some (31 + feb + 31 + 30 + 31 + 30 + 31 + 31 + 30 + 31)
      | 12 => some (31 + feb + 31 + 30 + 31 + 30 + 31 + 31 + 30 + 31 + 30)
      | _ => none
    match dbm with
    | none => none
    | some days_before_month_in_year =>
      let days_before := dby + days_before_month_in_year + day_of_month - 1
      some (.ok (Time.from_seconds_since_unix_epoch
        (days_before * 24 * 60 * 60 + hours * 60 * 60 + minutes * 60 + seconds)))

/-- read_digit from `src/time.rs` lines 50-57: read one byte and require it
to be an ASCII digit; end of input maps to `BadDerTime`. The reader is
modelled as a byte list, returning the value and the remaining bytes. -/
def read_digit (bs : List Nat) : Except Error (Nat × List Nat) :=
  match bs with
  | [] => .error .BadDerTime
  | b :: rest => if 48 ≤ b ∧ b ≤ 57 then .ok (b - 48, rest) else .error .BadDerTime

/-- read_two_digits from `src/time.rs` lines 59-71: two digits forming a
value that must lie in `[min, max]`. -/
def read_two_digits (bs : List Nat) (min max : Nat) : Except Error (Nat × List Nat) :=
  match read_digit bs with
  | .error e => .error e
  | .ok (hi, bs1) =>
    match read_digit bs1 with
    | .error e => .error e
    | .ok (lo, bs2) =>
      let value := hi * 10 + lo
      if value < min ∨ max < value then .error .BadDerTime
      else .ok (value, bs2)

/-- The year-reading step of the closure in Time::from_der
(`src/time.rs` lines 78-86): UTCTime resolves a two-digit year with
lo ≥ 50 meaning 19xx, otherwise 20xx; GeneralizedTime reads two
two-digit groups. Returns `(year_hi, year_lo)` and the rest. -/
def read_year_fields (is_utc_time : Bool) (bs : List Nat) :
    Except Error ((Nat × Nat) × List Nat) :=
  if is_utc_time then
    match read_two_digits bs 0 99 with
    | .error e => .error e
    | .ok (lo, bs1) => .ok (((if 50 ≤ lo then 19 else 20), lo), bs1)
  else
    match read_two_digits bs 0 99 with
    | .error e => .error e
    | .ok (hi, bs1) =>
      match read_two_digits bs1 0 99 with
      | .error e => .error e
      | .ok (lo, bs2) => .ok ((hi, lo), bs2)

/-- The value-decoding closure of Time::from_der (`src/time.rs` lines
77-102): field reads with per-field bounds, the trailing `Z` (byte 90)
check, then conversion via time_from_ymdhms_utc. `none` models a panic of
a callee (never reached, as proved below); on success the remaining bytes
of the value are returned alongside the Time. -/
def readTimeValue (is_utc_time : Bool) (bs : List Nat) :
    Option (Except Error (Time × List Nat)) :=
  match read_year_fields is_utc_time bs with
  | .error e => some (.error e)
  | .ok ((year_hi, year_lo), bs1) =>
    let year := year_hi * 100 + year_lo
    match read_two_digits bs1 1 12 with
    | .error e => some (.error e)
    | .ok (month, bs2) =>
      match days_in_month year month with
      | none => none
      | some dim =>
        match read_two_digits bs2 1 dim with
        | .error e => some (.error e)
        | .ok (day_of_month, bs3) =>
          match read_two_digits bs3 0 23 with
          | .error e => some (.error e)
          | .ok (hours, bs4) =>
            match read_two_digits bs4 0 59 with
            | .error e => some (.error e)
            | .ok (minutes, bs5) =>
              match read_two_digits bs5 0 59 with
              | .error e => some (.error e)
              | .ok (seconds, bs6) =>
                match bs6 with
                | [] => some (.error .BadDerTime)
                | time_zone :: bs7 =>
                  if time_zone ≠ 90 then some (.error .BadDerTime)
                  else
                    match time_from_ymdhms_utc year month day_of_month
                        hours minutes seconds with
                    | none => none
                    | some r => some (r.map (fun t => (t, bs7)))

/-- Modelled from the spec: DER length decoding of the DER reader (§4.1),
whose source (`der.rs`) is not under `src/`. Short form below 0x80;
minimal long form with 0x81/0x82; anything else is malformed and yields
`BadDer`. -/
def read_der_length (bs : List Nat) : Except Error (Nat × List Nat) :=
  match bs with
  | [] => .error .BadDer
  | b :: rest =>
    if b < 128 then .ok (b, rest)
    else if b = 129 then
      match rest with
      | [] => .error .BadDer
      | b1 :: rest1 => if b1 < 128 then .error .BadDer else .ok (b1, rest1)
    else if b = 130 then
      match rest with
      | b1 :: b2 :: rest2 =>
        if b1 * 256 + b2 < 256 then .error .BadDer else .ok (b1 * 256 + b2, rest2)
      | _ => .error .BadDer
    else .error .BadDer

/-- Modelled from the spec: `der::nested` (§4.1), whose source (`der.rs`)
is not under `src/`: expect the tag, then the length, then run the decoder
on a sub-cursor of exactly that length; overruns and malformed framing
yield `BadDer`, and a nested value not fully consumed by its decoder
yields the supplied incomplete-read error. -/
def der_nested (expected_tag : Nat) (incomplete : Error)
    (decoder : List Nat → Option (Except Error (Time × List Nat)))
    (bs : List Nat) : Option (Except Error (Time × List Nat)) :=
  match bs with
  | [] => some (.error .BadDer)
  | tag :: rest =>
    if tag ≠ expected_tag then some (.error .BadDer)
    else
      match read_der_length rest with
      | .error e => some (.error e)
      | .ok (len, rest1) =>
        if rest1.length < len then some (.error .BadDer)
        else
          match decoder (rest1.take len) with
          | none => none
          | some (.error e) => some (.error e)
          | some (.ok (t, leftover)) =>
            if leftover ≠ [] then some (.error incomplete)
            else some (.ok (t, rest1.drop len))

/-- Time::from_der from `src/time.rs` lines 42-104: peek for the UTCTime
tag (0x17 = 23; GeneralizedTime is 0x18 = 24), then parse the nested time
value; the incomplete-read error is `TrailingData DerTypeId.Time`. -/
def Time.from_der (bs : List Nat) : Option (Except Error (Time × List Nat)) :=
  let is_utc_time : Bool := bs.head? = some 23
  let expected_tag := if is_utc_time then 23 else 24
  der_nested expected_tag (.TrailingData .Time) (readTimeValue is_utc_time) bs

/-- The two ASCII-digit bytes of a value below 100. -/
def two_digits (n : Nat) : List Nat :=
  [48 + n / 10, 48 + n % 10]

/-- The content bytes of an encoded time: YYMMDDHHMMSSZ for UTCTime
(year_hi is implicit) and YYYYMMDDHHMMSSZ for GeneralizedTime. -/
def fieldBytes (is_utc_time : Bool) (year_hi year_lo mo d h mi s : Nat) : List Nat :=
  (if is_utc_time then two_digits year_lo
   else two_digits year_hi ++ two_digits year_lo) ++
  two_digits mo ++ two_digits d ++ two_digits h ++ two_digits mi ++
  two_digits s ++ [90]

/-- A complete DER GeneralizedTime: tag 0x18, length 15, then
YYYYMMDDHHMMSSZ. -/
def genTimeDer (y mo d h mi s : Nat) : List Nat :=
  24 :: 15 :: fieldBytes false (y / 100) (y % 100) mo d h mi s

/-- A complete DER UTCTime: tag 0x17, length 13, then YYMMDDHHMMSSZ. -/
def utcTimeDer (y mo d h mi s : Nat) : List Nat :=
  23 :: 13 :: fieldBytes true (y / 100) (y % 100) mo d h mi s

/-- C1 (counterexample): most_specific is not commutative as a function on
Error values: UnsupportedCertVersion and UnsupportedCriticalExtension share
rank 13, and the combinator keeps its left argument on ties. -/
theorem C1_not_commutative_counterexample :
    Error.most_specific .UnsupportedCertVersion .UnsupportedCriticalExtension ≠
      Error.most_specific .UnsupportedCriticalExtension .UnsupportedCertVersion := by
  decide

/-- C1 (amended): for all errors a and b,
rank (most_specific a b) = max (rank a) (rank b); most_specific is
associative; and most_specific a b = most_specific b a whenever
rank a ≠ rank b (on rank ties it keeps its left argument, so commutativity
as a function on Error values can fail). -/
theorem C1_most_specific_rank_max_assoc :
    (∀ a b : Error, (a.most_specific b).rank = Nat.max a.rank b.rank) ∧
    (∀ a b c : Error,
      (a.most_specific b).most_specific c = a.most_specific (b.most_specific c)) ∧
    (∀ a b : Error, a.rank ≠ b.rank → a.most_specific b = b.most_specific a) := by
  refine ⟨?_, ?_, ?_⟩
  · intro a b
    unfold Error.most_specific
    split <;> simp only [Nat.max_def] <;> split <;> omega
  · intro a b c
    simp only [Error.most_specific, ge_iff_le]
    split_ifs <;> first | rfl | omega
  · intro a b h
    simp only [Error.most_specific, ge_iff_le]
    split_ifs <;> first | rfl | omega

/-- Witness for C1's amended theorem at concrete errors of distinct rank. -/
theorem C1_witness :
    Error.most_specific .CertExpired .UnknownIssuer =
      Error.most_specific .UnknownIssuer .CertExpired :=
  C1_most_specific_rank_max_assoc.2.2 .CertExpired .UnknownIssuer (by decide)

/-- C3: MaximumSignatureChecksExceeded and UnknownIssuer both have rank 0,
UnsupportedCertVersion and UnsupportedCriticalExtension both have rank 13,
every other error kind has rank at least 1, and every such error (for
example CertExpired) strictly outranks UnknownIssuer under most_specific
in both argument orders. -/
theorem C3_rank_values :
    Error.rank .MaximumSignatureChecksExceeded = 0 ∧
    Error.rank .UnknownIssuer = 0 ∧
    Error.rank .UnsupportedCertVersion = 13 ∧
    Error.rank .UnsupportedCriticalExtension = 13 ∧
    (∀ e : Error,
      e ≠ .MaximumSignatureChecksExceeded → e ≠ .UnknownIssuer → 1 ≤ e.rank) ∧
    (∀ e : Error,
      e ≠ .MaximumSignatureChecksExceeded → e ≠ .UnknownIssuer →
        Error.most_specific .UnknownIssuer e = e ∧
        Error.most_specific e .UnknownIssuer = e) := by
  have hpos : ∀ e : Error,
      e ≠ .MaximumSignatureChecksExceeded → e ≠ .UnknownIssuer → 1 ≤ e.rank := by
    intro e h1 h2
    cases e <;> simp_all [Error.rank]
  refine ⟨rfl, rfl, rfl, rfl, hpos, ?_⟩
  intro e h1 h2
  have he := hpos e h1 h2
  have h0 : Error.rank .UnknownIssuer = 0 := rfl
  constructor
  · unfold Error.most_specific
    rw [h0, if_neg (by omega)]
  · unfold Error.most_specific
    rw [h0, if_pos (Nat.zero_le _)]

/-- Witness for C3 at CertExpired. -/
theorem C3_witness :
    1 ≤ Error.rank .CertExpired ∧
    Error.most_specific .UnknownIssuer .CertExpired = .CertExpired ∧
    Error.most_specific .CertExpired .UnknownIssuer = .CertExpired := by
  refine ⟨C3_rank_values.2.2.2.2.1 .CertExpired (by decide) (by decide), ?_, ?_⟩
  · exact (C3_rank_values.2.2.2.2.2 .CertExpired (by decide) (by decide)).1
  · exact (C3_rank_values.2.2.2.2.2 .CertExpired (by decide) (by decide)).2

/-- C8: most_specific keeps its left (already-accumulated) argument on rank
ties; in particular it is idempotent. -/
theorem C8_most_specific_left_biased :
    (∀ a b : Error, a.rank = b.rank → a.most_specific b = a) ∧
    (∀ a : Error, a.most_specific a = a) := by
  constructor
  · intro a b h
    unfold Error.most_specific
    rw [if_pos h.ge]
  · intro a
    unfold Error.most_specific
    rw [if_pos (le_refl _)]

/-- Witness for C8 at the rank-13 tie. -/
theorem C8_witness :
    Error.most_specific .UnsupportedCertVersion .UnsupportedCriticalExtension =
      .UnsupportedCertVersion :=
  C8_most_specific_left_biased.1 .UnsupportedCertVersion
    .UnsupportedCriticalExtension (by decide)

/-- C6: for every year at least 1970, days_before_year_since_unix_epoch
returns the Gregorian days-before-year formula normalized by the same
formula evaluated at 1970; in particular it returns 0 at 1970 and 365
at 1971. -/
theorem C6_days_before_year_formula :
    (∀ y : Nat, 1970 ≤ y →
      days_before_year_since_unix_epoch y =
        .ok (((y - 1) * 365 + (y - 1) / 4 - (y - 1) / 100 + (y - 1) / 400) -
          ((1970 - 1) * 365 + (1970 - 1) / 4 - (1970 - 1) / 100 + (1970 - 1) / 400))) ∧
    days_before_year_since_unix_epoch 1970 = .ok 0 ∧
    days_before_year_since_unix_epoch 1971 = .ok 365 := by
  refine ⟨?_, rfl, rfl⟩
  intro y hy
  unfold days_before_year_since_unix_epoch days_before_year_ad
    DAYS_BEFORE_UNIX_EPOCH_AD UNIX_EPOCH_YEAR
  rw [if_neg (by omega)]

/-- Witness for C6 at year 2017. -/
theorem C6_witness :
    days_before_year_since_unix_epoch 2017 =
      .ok (((2017 - 1) * 365 + (2017 - 1) / 4 - (2017 - 1) / 100 + (2017 - 1) / 400) -
        ((1970 - 1) * 365 + (1970 - 1) / 4 - (1970 - 1) / 100 + (1970 - 1) / 400)) :=
  C6_days_before_year_formula.1 2017 (by omega)

/-- C7: February has 29 days exactly in Gregorian leap years, otherwise 28,
and every other month matches the fixed table. -/
theorem C7_days_in_month_table :
    ∀ y : Nat,
      (days_in_month y 2 = some 29 ↔ y % 4 = 0 ∧ (y % 100 ≠ 0 ∨ y % 400 = 0)) ∧
      (days_in_month y 2 = some 29 ∨ days_in_month y 2 = some 28) ∧
      days_in_month y 1 = some 31 ∧ days_in_month y 3 = some 31 ∧
      days_in_month y 5 = some 31 ∧ days_in_month y 7 = some 31 ∧
      days_in_month y 8 = some 31 ∧ days_in_month y 10 = some 31 ∧
      days_in_month y 12 = some 31 ∧ days_in_month y 4 = some 30 ∧
      days_in_month y 6 = some 30 ∧ days_in_month y 9 = some 30 ∧
      days_in_month y 11 = some 30 := by
  intro y
  refine ⟨?_, ?_, rfl, rfl, rfl, rfl, rfl, rfl, rfl, rfl, rfl, rfl, rfl⟩
  · show some (days_in_feb y) = some 29 ↔ _
    unfold days_in_feb
    split_ifs with h
    · exact iff_of_true rfl h
    · exact iff_of_false (by simp) h
  · show some (days_in_feb y) = some 29 ∨ some (days_in_feb y) = some 28
    unfold days_in_feb
    split_ifs <;> simp

/-- Inversion for read_digit: success yields a digit value with the byte
consumed being 48 plus that value. -/
theorem read_digit_ok {bs : List Nat} {d : Nat} {rest : List Nat}
    (h : read_digit bs = .ok (d, rest)) : d ≤ 9 ∧ bs = (48 + d) :: rest := by
  unfold read_digit at h
  cases bs with
  | nil => exact absurd h (by simp)
  | cons b tl =>
    simp only [] at h
    by_cases hb : 48 ≤ b ∧ b ≤ 57
    · rw [if_pos hb] at h
      simp only [Except.ok.injEq, Prod.mk.injEq] at h
      obtain ⟨h1, h2⟩ := h
      subst h1 h2
      exact ⟨by omega, by rw [Nat.add_sub_cancel' hb.1]⟩
    · rw [if_neg hb] at h
      exact absurd h (by simp)

/-- read_digit only ever fails with BadDerTime. -/
theorem read_digit_error {bs : List Nat} {e : Error}
    (h : read_digit bs = .error e) : e = .BadDerTime := by
  unfold read_digit at h
  cases bs with
  | nil =>
    simp only [Except.error.injEq] at h
    exact h.symm
  | cons b tl =>
    simp only [] at h
    by_cases hb : 48 ≤ b ∧ b ≤ 57
    · rw [if_pos hb] at h
      exact absurd h (by simp)
    · rw [if_neg hb] at h
      simp only [Except.error.injEq] at h
      exact h.symm

/-- Inversion for read_two_digits: success yields a value in range whose
bytes are exactly its two ASCII digits. -/
theorem read_two_digits_ok {bs : List Nat} {mn mx v : Nat} {rest : List Nat}
    (h : read_two_digits bs mn mx = .ok (v, rest)) :
    mn ≤ v ∧ v ≤ mx ∧ v ≤ 99 ∧ bs = two_digits v ++ rest := by
  unfold read_two_digits at h
  cases h1 : read_digit bs with
  | error e => rw [h1] at h; exact absurd h (by simp)
  | ok p =>
    obtain ⟨hi, bs1⟩ := p
    rw [h1] at h
    simp only [] at h
    cases h2 : read_digit bs1 with
    | error e => rw [h2] at h; exact absurd h (by simp)
    | ok q =>
      obtain ⟨lo, bs2⟩ := q
      rw [h2] at h
      simp only [] at h
      by_cases hc : hi * 10 + lo < mn ∨ mx < hi * 10 + lo
      · rw [if_pos hc] at h
        exact absurd h (by simp)
      · rw [if_neg hc] at h
        simp only [Except.ok.injEq, Prod.mk.injEq] at h
        obtain ⟨hv, hr⟩ := h
        obtain ⟨hhi, hbs⟩ := read_digit_ok h1
        obtain ⟨hlo, hbs1⟩ := read_digit_ok h2
        subst hv hr
        refine ⟨by omega, by omega, by omega, ?_⟩
        rw [hbs, hbs1]
        unfold two_digits
        have e1 : (hi * 10 + lo) / 10 = hi := by omega
        have e2 : (hi * 10 + lo) % 10 = lo := by omega
        rw [e1, e2]
        rfl

/-- read_two_digits only ever fails with BadDerTime. -/
theorem read_two_digits_error {bs : List Nat} {mn mx : Nat} {e : Error}
    (h : read_two_digits bs mn mx = .error e) : e = .BadDerTime := by
  unfold read_two_digits at h
  cases h1 : read_digit bs with
  | error e1 =>
    rw [h1] at h
    simp only [Except.error.injEq] at h
    subst h
    exact read_digit_error h1
  | ok p =>
    obtain ⟨hi, bs1⟩ := p
    rw [h1] at h
    simp only [] at h
    cases h2 : read_digit bs1 with
    | error e2 =>
      rw [h2] at h
      simp only [Except.error.injEq] at h
      subst h
      exact read_digit_error h2
    | ok q =>
      obtain ⟨lo, bs2⟩ := q
      rw [h2] at h
      simp only [] at h
      by_cases hc : hi * 10 + lo < mn ∨ mx < hi * 10 + lo
      · rw [if_pos hc] at h
        simp only [Except.error.injEq] at h
        exact h.symm
      · rw [if_neg hc] at h
        exact absurd h (by simp)

/-- Evaluation of read_two_digits on the two ASCII digits of a value below
100: the value is returned exactly when it lies in the range. -/
theorem read_two_digits_eval (n mn mx : Nat) (rest : List Nat) (hn : n ≤ 99) :
    read_two_digits (two_digits n ++ rest) mn mx =
      if n < mn ∨ mx < n then .error .BadDerTime else .ok (n, rest) := by
  have hd1 : read_digit (two_digits n ++ rest) = .ok (n / 10, (48 + n % 10) :: rest) := by
    unfold two_digits read_digit
    simp only [List.cons_append, List.nil_append]
    rw [if_pos (by omega : 48 ≤ 48 + n / 10 ∧ 48 + n / 10 ≤ 57)]
    simp only [Except.ok.injEq, Prod.mk.injEq]
    exact ⟨by omega, trivial⟩
  have hd2 : read_digit ((48 + n % 10) :: rest) = .ok (n % 10, rest) := by
    unfold read_digit
    simp only []
    rw [if_pos (by omega : 48 ≤ 48 + n % 10 ∧ 48 + n % 10 ≤ 57)]
    simp only [Except.ok.injEq, Prod.mk.injEq]
    exact ⟨by omega, trivial⟩
  unfold read_two_digits
  rw [hd1]
  simp only []
  rw [hd2]
  simp only []
  have hv : n / 10 * 10 + n % 10 = n := by omega
  rw [hv]

/-- Evaluation of the UTCTime year step on two ASCII digits: the century is
resolved by the lo ≥ 50 rule. -/
theorem read_year_fields_utc_eval (yl : Nat) (rest : List Nat) (hyl : yl ≤ 99) :
    read_year_fields true (two_digits yl ++ rest) =
      .ok (((if 50 ≤ yl then 19 else 20), yl), rest) := by
  unfold read_year_fields
  rw [if_pos rfl]
  rw [read_two_digits_eval yl 0 99 rest (by omega), if_neg (by omega)]

/-- Evaluation of the GeneralizedTime year step on four ASCII digits. -/
theorem read_year_fields_gen_eval (yh yl : Nat) (rest : List Nat)
    (hyh : yh ≤ 99) (hyl : yl ≤ 99) :
    read_year_fields false (two_digits yh ++ (two_digits yl ++ rest)) =
      .ok ((yh, yl), rest) := by
  unfold read_year_fields
  rw [if_neg (by simp)]
  rw [read_two_digits_eval yh 0 99 _ (by omega), if_neg (by omega)]
  simp only []
  rw [read_two_digits_eval yl 0 99 rest (by omega), if_neg (by omega)]

/-- Inversion for the year step: the bytes consumed are exactly the encoded
digits, and in UTCTime mode the century obeys the lo ≥ 50 rule. -/
theorem read_year_fields_ok {b : Bool} {bs : List Nat} {yh yl : Nat} {rest : List Nat}
    (h : read_year_fields b bs = .ok ((yh, yl), rest)) :
    yh ≤ 99 ∧ yl ≤ 99 ∧
    (b = true → yh = (if 50 ≤ yl then 19 else 20) ∧ bs = two_digits yl ++ rest) ∧
    (b = false → bs = two_digits yh ++ (two_digits yl ++ rest)) := by
  unfold read_year_fields at h
  cases b with
  | true =>
    rw [if_pos rfl] at h
    cases h1 : read_two_digits bs 0 99 with
    | error e => rw [h1] at h; exact absurd h (by simp)
    | ok p =>
      obtain ⟨lo, bs1⟩ := p
      rw [h1] at h
      simp only [Except.ok.injEq, Prod.mk.injEq] at h
      obtain ⟨⟨hh, hl⟩, hr⟩ := h
      subst hh hl hr
      obtain ⟨_, _, hlo99, hbs⟩ := read_two_digits_ok h1
      refine ⟨by split_ifs <;> omega, hlo99, fun _ => ⟨rfl, hbs⟩, by simp⟩
  | false =>
    rw [if_neg (by simp)] at h
    cases h1 : read_two_digits bs 0 99 with
    | error e => rw [h1] at h; exact absurd h (by simp)
    | ok p =>
      obtain ⟨hi, bs1⟩ := p
      rw [h1] at h
      simp only [] at h
      cases h2 : read_two_digits bs1 0 99 with
      | error e => rw [h2] at h; exact absurd h (by simp)
      | ok q =>
        obtain ⟨lo, bs2⟩ := q
        rw [h2] at h
        simp only [Except.ok.injEq, Prod.mk.injEq] at h
        obtain ⟨⟨hh, hl⟩, hr⟩ := h
        subst hh hl hr
        obtain ⟨_, _, hhi99, hbs⟩ := read_two_digits_ok h1
        obtain ⟨_, _, hlo99, hbs1⟩ := read_two_digits_ok h2
        refine ⟨hhi99, hlo99, by simp, fun _ => ?_⟩
        rw [hbs, hbs1]

/-- The year step only ever fails with BadDerTime. -/
theorem read_year_fields_error {b : Bool} {bs : List Nat} {e : Error}
    (h : read_year_fields b bs = .error e) : e = .BadDerTime := by
  unfold read_year_fields at h
  cases b with
  | true =>
    rw [if_pos rfl] at h
    cases h1 : read_two_digits bs 0 99 with
    | error e1 =>
      rw [h1] at h
      simp only [Except.error.injEq] at h
      subst h
      exact read_two_digits_error h1
    | ok p =>
      obtain ⟨lo, bs1⟩ := p
      rw [h1] at h
      exact absurd h (by simp)
  | false =>
    rw [if_neg (by simp)] at h
    cases h1 : read_two_digits bs 0 99 with
    | error e1 =>
      rw [h1] at h
      simp only [Except.error.injEq] at h
      subst h
      exact read_two_digits_error h1
    | ok p =>
      obtain ⟨hi, bs1⟩ := p
      rw [h1] at h
      simp only [] at h
      cases h2 : read_two_digits bs1 0 99 with
      | error e2 =>
        rw [h2] at h
        simp only [Except.error.injEq] at h
        subst h
        exact read_two_digits_error h2
      | ok q =>
        obtain ⟨lo, bs2⟩ := q
        rw [h2] at h
        exact absurd h (by simp)

/-- For months 1-12 the month dispatch of days_in_month never reaches its
panic arm. -/
theorem days_in_month_isSome (y : Nat) {mo : Nat} (h1 : 1 ≤ mo) (h2 : mo ≤ 12) :
    ∃ dim, days_in_month y mo = some dim := by
  interval_cases mo <;> exact ⟨_, rfl⟩

/-- For months 1-12 the month dispatch of time_from_ymdhms_utc never reaches
its panic arm. -/
theorem time_from_ymdhms_utc_isSome (y : Nat) {mo : Nat} (d hr mi s : Nat)
    (h1 : 1 ≤ mo) (h2 : mo ≤ 12) :
    (time_from_ymdhms_utc y mo d hr mi s).isSome := by
  unfold time_from_ymdhms_utc
  cases hdb : days_before_year_since_unix_epoch y with
  | error e => simp
  | ok v =>
    simp only []
    interval_cases mo <;> simp

/-- With a post-epoch year and a month in 1-12, time_from_ymdhms_utc
returns Ok. -/
theorem time_from_ymdhms_utc_ok {y mo : Nat} (d hr mi s : Nat)
    (hy : 1970 ≤ y) (hmo1 : 1 ≤ mo) (hmo2 : mo ≤ 12) :
    ∃ t : Time, time_from_ymdhms_utc y mo d hr mi s = some (.ok t) := by
  unfold time_from_ymdhms_utc days_before_year_since_unix_epoch UNIX_EPOCH_YEAR
  rw [if_neg (by omega)]
  simp only []
  interval_cases mo <;> exact ⟨_, rfl⟩

/-- time_from_ymdhms_utc returns an error only for pre-epoch years, and
that error is BadDerTime. -/
theorem time_from_ymdhms_utc_error {y mo d hr mi s : Nat} {e : Error}
    (h : time_from_ymdhms_utc y mo d hr mi s = some (.error e)) :
    y < 1970 ∧ e = .BadDerTime := by
  unfold time_from_ymdhms_utc days_before_year_since_unix_epoch UNIX_EPOCH_YEAR at h
  by_cases hy : y < 1970
  · rw [if_pos hy] at h
    simp only [Option.some.injEq, Except.error.injEq] at h
    exact ⟨hy, h.symm⟩
  · rw [if_neg hy] at h
    simp only [] at h
    exfalso
    split at h <;> simp_all

/-- Every month length produced by days_in_month is at most 31. -/
theorem days_in_month_le {y mo dim : Nat} (h : days_in_month y mo = some dim) :
    dim ≤ 31 := by
  unfold days_in_month at h
  split at h <;> simp_all [days_in_feb] <;> first | omega | (split_ifs at h <;> omega)

/-- Evaluation of the time-value closure once the year step is fixed: with
every field in range and the trailing Z, the result is the converted time
paired with the bytes after the Z. -/
theorem readTimeValue_after_year (b : Bool) (bs : List Nat) (yh yl mo d hr mi s : Nat)
    (rest : List Nat)
    (hyear : read_year_fields b bs = .ok ((yh, yl),
      two_digits mo ++ (two_digits d ++ (two_digits hr ++ (two_digits mi ++
        (two_digits s ++ (90 :: rest)))))))
    (hmo1 : 1 ≤ mo) (hmo2 : mo ≤ 12) {dim : Nat}
    (hdim : days_in_month (yh * 100 + yl) mo = some dim)
    (hd1 : 1 ≤ d) (hd2 : d ≤ dim) (hhr : hr ≤ 23) (hmi : mi ≤ 59) (hs : s ≤ 59) :
    readTimeValue b bs =
      Option.map (Except.map (fun t => (t, rest)))
        (time_from_ymdhms_utc (yh * 100 + yl) mo d hr mi s) := by
  have hdim31 : dim ≤ 31 := days_in_month_le hdim
  unfold readTimeValue
  rw [hyear]
  simp only []
  rw [read_two_digits_eval mo 1 12 _ (by omega), if_neg (by omega)]
  simp only []
  rw [hdim]
  simp only []
  rw [read_two_digits_eval d 1 dim _ (by omega), if_neg (by omega)]
  simp only []
  rw [read_two_digits_eval hr 0 23 _ (by omega), if_neg (by omega)]
  simp only []
  rw [read_two_digits_eval mi 0 59 _ (by omega), if_neg (by omega)]
  simp only []
  rw [read_two_digits_eval s 0 59 _ (by omega), if_neg (by omega)]
  simp only []
  rw [if_neg (by omega : ¬((90 : Nat) ≠ 90))]
  cases htf : time_from_ymdhms_utc (yh * 100 + yl) mo d hr mi s with
  | none => simp
  | some r => cases r <;> simp [Except.map]

/-- The time-value closure is total: the bounds checks on the month keep
both panic arms unreachable on every input. -/
theorem readTimeValue_isSome (b : Bool) (bs : List Nat) :
    (readTimeValue b bs).isSome := by
  unfold readTimeValue
  cases h1 : read_year_fields b bs with
  | error e => simp
  | ok p =>
    obtain ⟨⟨yh, yl⟩, bs1⟩ := p
    simp only []
    cases h2 : read_two_digits bs1 1 12 with
    | error e => simp
    | ok q =>
      obtain ⟨mo, bs2⟩ := q
      simp only []
      obtain ⟨hmo1, hmo2, _, _⟩ := read_two_digits_ok h2
      obtain ⟨dim, hdim⟩ := days_in_month_isSome (yh * 100 + yl) hmo1 hmo2
      rw [hdim]
      simp only []
      cases h3 : read_two_digits bs2 1 dim with
      | error e => simp
      | ok q3 =>
        obtain ⟨d, bs3⟩ := q3
        simp only []
        cases h4 : read_two_digits bs3 0 23 with
        | error e => simp
        | ok q4 =>
          obtain ⟨hr, bs4⟩ := q4
          simp only []
          cases h5 : read_two_digits bs4 0 59 with
          | error e => simp
          | ok q5 =>
            obtain ⟨mi, bs5⟩ := q5
            simp only []
            cases h6 : read_two_digits bs5 0 59 with
            | error e => simp
            | ok q6 =>
              obtain ⟨s, bs6⟩ := q6
              simp only []
              cases bs6 with
              | nil => simp
              | cons tz bs7 =>
                simp only []
                by_cases htz : tz ≠ 90
                · rw [if_pos htz]
                  simp
                · rw [if_neg htz]
                  have hts := time_from_ymdhms_utc_isSome (yh * 100 + yl) d hr mi s hmo1 hmo2
                  cases htf : time_from_ymdhms_utc (yh * 100 + yl) mo d hr mi s with
                  | none => rw [htf] at hts; exact absurd hts (by simp)
                  | some r => simp

/-- The time-value closure only ever fails with BadDerTime. -/
theorem readTimeValue_error {b : Bool} {bs : List Nat} {e : Error}
    (h : readTimeValue b bs = some (.error e)) : e = .BadDerTime := by
  unfold readTimeValue at h
  cases h1 : read_year_fields b bs with
  | error e1 =>
    rw [h1] at h
    simp only [Option.some.injEq, Except.error.injEq] at h
    subst h
    exact read_year_fields_error h1
  | ok p =>
    obtain ⟨⟨yh, yl⟩, bs1⟩ := p
    rw [h1] at h
    simp only [] at h
    cases h2 : read_two_digits bs1 1 12 with
    | error e2 =>
      rw [h2] at h
      simp only [Option.some.injEq, Except.error.injEq] at h
      subst h
      exact read_two_digits_error h2
    | ok q =>
      obtain ⟨mo, bs2⟩ := q
      rw [h2] at h
      simp only [] at h
      cases h3 : days_in_month (yh * 100 + yl) mo with
      | none => rw [h3] at h; exact absurd h (by simp)
      | some dim =>
        rw [h3] at h
        simp only [] at h
        cases h4 : read_two_digits bs2 1 dim with
        | error e4 =>
          rw [h4] at h
          simp only [Option.some.injEq, Except.error.injEq] at h
          subst h
          exact read_two_digits_error h4
        | ok q4 =>
          obtain ⟨d, bs3⟩ := q4
          rw [h4] at h
          simp only [] at h
          cases h5 : read_two_digits bs3 0 23 with
          | error e5 =>
            rw [h5] at h
            simp only [Option.some.injEq, Except.error.injEq] at h
            subst h
            exact read_two_digits_error h5
          | ok q5 =>
            obtain ⟨hr, bs4⟩ := q5
            rw [h5] at h
            simp only [] at h
            cases h6 : read_two_digits bs4 0 59 with
            | error e6 =>
              rw [h6] at h
              simp only [Option.some.injEq, Except.error.injEq] at h
              subst h
              exact read_two_digits_error h6
            | ok q6 =>
              obtain ⟨mi, bs5⟩ := q6
              rw [h6] at h
              simp only [] at h
              cases h7 : read_two_digits bs5 0 59 with
              | error e7 =>
                rw [h7] at h
                simp only [Option.some.injEq, Except.error.injEq] at h
                subst h
                exact read_two_digits_error h7
              | ok q7 =>
                obtain ⟨s, bs6⟩ := q7
                rw [h7] at h
                simp only [] at h
                cases bs6 with
                | nil =>
                  simp only [Option.some.injEq, Except.error.injEq] at h
                  exact h.symm
                | cons tz bs7 =>
                  simp only [] at h
                  by_cases htz : tz ≠ 90
                  · rw [if_pos htz] at h
                    simp only [Option.some.injEq, Except.error.injEq] at h
                    exact h.symm
                  · rw [if_neg htz] at h
                    cases htf : time_from_ymdhms_utc (yh * 100 + yl) mo d hr mi s with
                    | none => rw [htf] at h; exact absurd h (by simp)
                    | some r =>
                      rw [htf] at h
                      cases r with
                      | error e8 =>
                        simp only [Except.map, Option.some.injEq,
                          Except.error.injEq] at h
                        subst h
                        exact (time_from_ymdhms_utc_error htf).2
                      | ok t0 =>
                        exact absurd h (by simp [Except.map])

/-- Inversion for the time-value closure: a successful parse forces the
input to be exactly the digit encodings of in-range fields followed by the
Z byte, with the result given by time_from_ymdhms_utc. -/
theorem readTimeValue_ok {b : Bool} {bs : List Nat} {t : Time} {rest : List Nat}
    (h : readTimeValue b bs = some (.ok (t, rest))) :
    ∃ yh yl mo d hr mi s dim : Nat,
      bs = fieldBytes b yh yl mo d hr mi s ++ rest ∧
      yh ≤ 99 ∧ yl ≤ 99 ∧
      (b = true → yh = (if 50 ≤ yl then 19 else 20)) ∧
      1 ≤ mo ∧ mo ≤ 12 ∧
      days_in_month (yh * 100 + yl) mo = some dim ∧
      1 ≤ d ∧ d ≤ dim ∧ hr ≤ 23 ∧ mi ≤ 59 ∧ s ≤ 59 ∧
      time_from_ymdhms_utc (yh * 100 + yl) mo d hr mi s = some (.ok t) := by
  unfold readTimeValue at h
  cases h1 : read_year_fields b bs with
  | error e => rw [h1] at h; exact absurd h (by simp)
  | ok p =>
    obtain ⟨⟨yh, yl⟩, bs1⟩ := p
    rw [h1] at h
    simp only [] at h
    cases h2 : read_two_digits bs1 1 12 with
    | error e => rw [h2] at h; exact absurd h (by simp)
    | ok q =>
      obtain ⟨mo, bs2⟩ := q
      rw [h2] at h
      simp only [] at h
      cases h3 : days_in_month (yh * 100 + yl) mo with
      | none => rw [h3] at h; exact absurd h (by simp)
      | some dim =>
        rw [h3] at h
        simp only [] at h
        cases h4 : read_two_digits bs2 1 dim with
        | error e => rw [h4] at h; exact absurd h (by simp)
        | ok q4 =>
          obtain ⟨d, bs3⟩ := q4
          rw [h4] at h
          simp only [] at h
          cases h5 : read_two_digits bs3 0 23 with
          | error e => rw [h5] at h; exact absurd h (by simp)
          | ok q5 =>
            obtain ⟨hr, bs4⟩ := q5
            rw [h5] at h
            simp only [] at h
            cases h6 : read_two_digits bs4 0 59 with
            | error e => rw [h6] at h; exact absurd h (by simp)
            | ok q6 =>
              obtain ⟨mi, bs5⟩ := q6
              rw [h6] at h
              simp only [] at h
              cases h7 : read_two_digits bs5 0 59 with
              | error e => rw [h7] at h; exact absurd h (by simp)
              | ok q7 =>
                obtain ⟨s, bs6⟩ := q7
                rw [h7] at h
                simp only [] at h
                cases bs6 with
                | nil => exact absurd h (by simp)
                | cons tz bs7 =>
                  simp only [] at h
                  by_cases htz : tz ≠ 90
                  · rw [if_pos htz] at h
                    exact absurd h (by simp)
                  · rw [if_neg htz] at h
                    push_neg at htz
                    subst htz
                    cases htf : time_from_ymdhms_utc (yh * 100 + yl) mo d hr mi s with
                    | none => rw [htf] at h; exact absurd h (by simp)
                    | some r =>
                      rw [htf] at h
                      cases r with
                      | error e8 => exact absurd h (by simp [Except.map])
                      | ok t0 =>
                        simp only [Except.map, Option.some.injEq, Except.ok.injEq,
                          Prod.mk.injEq] at h
                        obtain ⟨ht, hrest⟩ := h
                        subst ht hrest
                        obtain ⟨hyh99, hyl99, hutc, hgen⟩ := read_year_fields_ok h1
                        obtain ⟨hmo1, hmo2, _, hbs1⟩ := read_two_digits_ok h2
                        obtain ⟨hd1, hd2, _, hbs2⟩ := read_two_digits_ok h4
                        obtain ⟨_, hhr23, _, hbs3⟩ := read_two_digits_ok h5
                        obtain ⟨_, hmi59, _, hbs4⟩ := read_two_digits_ok h6
                        obtain ⟨_, hs59, _, hbs5⟩ := read_two_digits_ok h7
                        refine ⟨yh, yl, mo, d, hr, mi, s, dim, ?_, hyh99, hyl99,
                          fun hb => (hutc hb).1, hmo1, hmo2, h3, hd1, hd2,
                          hhr23, hmi59, hs59, htf⟩
                        cases b with
                        | true =>
                          rw [(hutc rfl).2, hbs1, hbs2, hbs3, hbs4, hbs5]
                          simp only [fieldBytes, List.append_assoc,
                            List.cons_append, List.nil_append]
                          rw [if_pos trivial]
                        | false =>
                          rw [hgen rfl, hbs1, hbs2, hbs3, hbs4, hbs5]
                          simp only [fieldBytes, List.append_assoc,
                            List.cons_append, List.nil_append]
                          rw [if_neg (by simp)]
                          simp only [List.append_assoc, List.cons_append,
                            List.nil_append]

/-- Length of the time content bytes: 13 for UTCTime, 15 for GeneralizedTime. -/
theorem fieldBytes_length (b : Bool) (yh yl mo d hr mi s : Nat) :
    (fieldBytes b yh yl mo d hr mi s).length = if b then 13 else 15 := by
  cases b <;> simp [fieldBytes, two_digits]

/-- der_nested on a well-framed input whose decoder consumes the whole
value: the decoded result is returned with nothing left over. -/
theorem der_nested_ok (expected_tag : Nat) (inc : Error)
    {dec : List Nat → Option (Except Error (Time × List Nat))}
    {content : List Nat} {len : Nat} (hlen : content.length = len) (hlt : len < 128)
    {t : Time} (hdec : dec content = some (.ok (t, []))) :
    der_nested expected_tag inc dec (expected_tag :: len :: content) =
      some (.ok (t, [])) := by
  unfold der_nested
  simp only []
  rw [if_neg (by omega : ¬(expected_tag ≠ expected_tag))]
  unfold read_der_length
  simp only []
  rw [if_pos hlt]
  simp only []
  rw [if_neg (show ¬(content.length < len) by omega)]
  have htake : content.take len = content := by
    rw [← hlen]; exact List.take_length content
  rw [htake, hdec]
  simp only []
  rw [if_neg (by simp)]
  have hdrop : content.drop len = ([] : List Nat) := by
    rw [← hlen]; exact List.drop_length content
  rw [hdrop]

/-- der_nested on a well-framed input whose decoder fails: the decoder's
error is propagated. -/
theorem der_nested_err (expected_tag : Nat) (inc : Error)
    {dec : List Nat → Option (Except Error (Time × List Nat))}
    {content : List Nat} {len : Nat} (hlen : content.length = len) (hlt : len < 128)
    {e : Error} (hdec : dec content = some (.error e)) :
    der_nested expected_tag inc dec (expected_tag :: len :: content) =
      some (.error e) := by
  unfold der_nested
  simp only []
  rw [if_neg (by omega : ¬(expected_tag ≠ expected_tag))]
  unfold read_der_length
  simp only []
  rw [if_pos hlt]
  simp only []
  rw [if_neg (show ¬(content.length < len) by omega)]
  have htake : content.take len = content := by
    rw [← hlen]; exact List.take_length content
  rw [htake, hdec]

/-- der_nested is total whenever its decoder is. -/
theorem der_nested_isSome (expected_tag : Nat) (inc : Error)
    {dec : List Nat → Option (Except Error (Time × List Nat))}
    (hdec : ∀ l, (dec l).isSome) (bs : List Nat) :
    (der_nested expected_tag inc dec bs).isSome := by
  unfold der_nested
  cases bs with
  | nil => simp
  | cons tag rest =>
    simp only []
    by_cases ht : tag ≠ expected_tag
    · rw [if_pos ht]; simp
    · rw [if_neg ht]
      cases hl : read_der_length rest with
      | error e => simp
      | ok p =>
        obtain ⟨len, rest1⟩ := p
        simp only []
        by_cases hlen : rest1.length < len
        · rw [if_pos hlen]; simp
        · rw [if_neg hlen]
          have hd0 := hdec (rest1.take len)
          cases hd : dec (rest1.take len) with
          | none => rw [hd] at hd0; exact absurd hd0 (by simp)
          | some r =>
            cases r with
            | error e => simp
            | ok p2 =>
              obtain ⟨t, leftover⟩ := p2
              simp only []
              by_cases hlo : leftover ≠ []
              · rw [if_pos hlo]; simp
              · rw [if_neg hlo]; simp

/-- A leading GeneralizedTime tag makes the UTCTime peek fail, so parsing
proceeds in GeneralizedTime mode expecting tag 24. -/
theorem from_der_gen_peek (l : List Nat) :
    Time.from_der (24 :: l) =
      der_nested 24 (.TrailingData .Time) (readTimeValue false) (24 :: l) := rfl

/-- A leading UTCTime tag makes the peek succeed, so parsing proceeds in
UTCTime mode expecting tag 23. -/
theorem from_der_utc_peek (l : List Nat) :
    Time.from_der (23 :: l) =
      der_nested 23 (.TrailingData .Time) (readTimeValue true) (23 :: l) := rfl

/-- Full evaluation of Time.from_der on an encoded GeneralizedTime with
every field in range: the result is the time_from_ymdhms_utc conversion. -/
theorem from_der_genTime (y mo d hr mi s : Nat) (hy : y ≤ 9999)
    (hmo1 : 1 ≤ mo) (hmo2 : mo ≤ 12) {dim : Nat}
    (hdim : days_in_month y mo = some dim) (hd1 : 1 ≤ d) (hd2 : d ≤ dim)
    (hhr : hr ≤ 23) (hmi : mi ≤ 59) (hs : s ≤ 59) :
    Time.from_der (genTimeDer y mo d hr mi s) =
      Option.map (Except.map (fun t => (t, ([] : List Nat))))
        (time_from_ymdhms_utc y mo d hr mi s) := by
  have hy' : y / 100 * 100 + y % 100 = y := by omega
  have hyear : read_year_fields false (fieldBytes false (y / 100) (y % 100) mo d hr mi s) =
      .ok ((y / 100, y % 100),
        two_digits mo ++ (two_digits d ++ (two_digits hr ++ (two_digits mi ++
          (two_digits s ++ (90 :: ([] : List Nat))))))) := by
    unfold fieldBytes
    rw [if_neg (by simp)]
    rw [List.append_assoc]
    exact read_year_fields_gen_eval (y / 100) (y % 100) _ (by omega) (by omega)
  have hdim' : days_in_month (y / 100 * 100 + y % 100) mo = some dim := by
    rw [hy']; exact hdim
  have hdec := readTimeValue_after_year false
    (fieldBytes false (y / 100) (y % 100) mo d hr mi s)
    (y / 100) (y % 100) mo d hr mi s [] hyear hmo1 hmo2 hdim' hd1 hd2 hhr hmi hs
  rw [hy'] at hdec
  have hlen : (fieldBytes false (y / 100) (y % 100) mo d hr mi s).length = 15 := by
    rw [fieldBytes_length]
    simp
  unfold genTimeDer
  rw [from_der_gen_peek]
  cases htf : time_from_ymdhms_utc y mo d hr mi s with
  | none =>
    exact absurd (time_from_ymdhms_utc_isSome y d hr mi s hmo1 hmo2)
      (by rw [htf]; simp)
  | some r =>
    cases r with
    | error e =>
      rw [htf] at hdec
      simp only [Option.map_some', Except.map] at hdec
      rw [der_nested_err 24 (.TrailingData .Time) hlen (by omega) hdec]
      simp [Except.map]
    | ok t =>
      rw [htf] at hdec
      simp only [Option.map_some', Except.map] at hdec
      rw [der_nested_ok 24 (.TrailingData .Time) hlen (by omega) hdec]
      simp [Except.map]

/-- Full evaluation of Time.from_der on an encoded UTCTime with a year in
1950-2049 and every field in range: the two-digit year resolves by the
lo ≥ 50 rule back to the encoded year, and the result is the
time_from_ymdhms_utc conversion. -/
theorem from_der_utcTime (y mo d hr mi s : Nat) (hy1 : 1950 ≤ y) (hy2 : y ≤ 2049)
    (hmo1 : 1 ≤ mo) (hmo2 : mo ≤ 12) {dim : Nat}
    (hdim : days_in_month y mo = some dim) (hd1 : 1 ≤ d) (hd2 : d ≤ dim)
    (hhr : hr ≤ 23) (hmi : mi ≤ 59) (hs : s ≤ 59) :
    Time.from_der (utcTimeDer y mo d hr mi s) =
      Option.map (Except.map (fun t => (t, ([] : List Nat))))
        (time_from_ymdhms_utc y mo d hr mi s) := by
  have hy' : y / 100 * 100 + y % 100 = y := by omega
  have hres : (if 50 ≤ y % 100 then 19 else 20) = y / 100 := by
    split_ifs <;> omega
  have hyear : read_year_fields true (fieldBytes true (y / 100) (y % 100) mo d hr mi s) =
      .ok ((y / 100, y % 100),
        two_digits mo ++ (two_digits d ++ (two_digits hr ++ (two_digits mi ++
          (two_digits s ++ (90 :: ([] : List Nat))))))) := by
    have h0 := read_year_fields_utc_eval (y % 100)
      (two_digits mo ++ (two_digits d ++ (two_digits hr ++ (two_digits mi ++
        (two_digits s ++ (90 :: ([] : List Nat))))))) (by omega)
    rw [hres] at h0
    exact h0
  have hdim' : days_in_month (y / 100 * 100 + y % 100) mo = some dim := by
    rw [hy']; exact hdim
  have hdec := readTimeValue_after_year true
    (fieldBytes true (y / 100) (y % 100) mo d hr mi s)
    (y / 100) (y % 100) mo d hr mi s [] hyear hmo1 hmo2 hdim' hd1 hd2 hhr hmi hs
  rw [hy'] at hdec
  have hlen : (fieldBytes true (y / 100) (y % 100) mo d hr mi s).length = 13 := by
    rw [fieldBytes_length]
    simp
  unfold utcTimeDer
  rw [from_der_utc_peek]
  cases htf : time_from_ymdhms_utc y mo d hr mi s with
  | none =>
    exact absurd (time_from_ymdhms_utc_isSome y d hr mi s hmo1 hmo2)
      (by rw [htf]; simp)
  | some r =>
    cases r with
    | error e =>
      rw [htf] at hdec
      simp only [Option.map_some', Except.map] at hdec
      rw [der_nested_err 23 (.TrailingData .Time) hlen (by omega) hdec]
      simp [Except.map]
    | ok t =>
      rw [htf] at hdec
      simp only [Option.map_some', Except.map] at hdec
      rw [der_nested_ok 23 (.TrailingData .Time) hlen (by omega) hdec]
      simp [Except.map]

/-- C2: for every date with valid civil fields and year in 1970-9999, the
DER GeneralizedTime YYYYMMDDHHMMSSZ parses to exactly
time_from_ymdhms_utc of those fields; and for years in 1950-2049 the
two-digit-year DER UTCTime YYMMDDHHMMSSZ parses to the same value. -/
theorem C2_round_trip_time_parsing :
    (∀ y mo d hr mi s dim : Nat, 1970 ≤ y → y ≤ 9999 → 1 ≤ mo → mo ≤ 12 →
      days_in_month y mo = some dim → 1 ≤ d → d ≤ dim → hr ≤ 23 → mi ≤ 59 → s ≤ 59 →
      ∃ t : Time, time_from_ymdhms_utc y mo d hr mi s = some (.ok t) ∧
        Time.from_der (genTimeDer y mo d hr mi s) = some (.ok (t, ([] : List Nat))) ∧
        (1950 ≤ y → y ≤ 2049 →
          Time.from_der (utcTimeDer y mo d hr mi s) = some (.ok (t, ([] : List Nat))))) ∧
    (∀ y mo d hr mi s dim : Nat, 1950 ≤ y → y ≤ 2049 → 1 ≤ mo → mo ≤ 12 →
      days_in_month y mo = some dim → 1 ≤ d → d ≤ dim → hr ≤ 23 → mi ≤ 59 → s ≤ 59 →
      Time.from_der (utcTimeDer y mo d hr mi s) =
        Option.map (Except.map (fun t => (t, ([] : List Nat))))
          (time_from_ymdhms_utc y mo d hr mi s)) := by
  constructor
  · intro y mo d hr mi s dim hy1 hy2 hmo1 hmo2 hdim hd1 hd2 hhr hmi hs
    obtain ⟨t, ht⟩ := time_from_ymdhms_utc_ok d hr mi s hy1 hmo1 hmo2
    refine ⟨t, ht, ?_, ?_⟩
    · rw [from_der_genTime y mo d hr mi s hy2 hmo1 hmo2 hdim hd1 hd2 hhr hmi hs, ht]
      simp [Except.map]
    · intro hu1 hu2
      rw [from_der_utcTime y mo d hr mi s hu1 hu2 hmo1 hmo2 hdim hd1 hd2 hhr hmi hs, ht]
      simp [Except.map]
  · intro y mo d hr mi s dim hy1 hy2 hmo1 hmo2 hdim hd1 hd2 hhr hmi hs
    exact from_der_utcTime y mo d hr mi s hy1 hy2 hmo1 hmo2 hdim hd1 hd2 hhr hmi hs

/-- Witness for C2 at 2017-04-17 17:12:42. -/
theorem C2_witness :
    ∃ t : Time, time_from_ymdhms_utc 2017 4 17 17 12 42 = some (.ok t) ∧
      Time.from_der (genTimeDer 2017 4 17 17 12 42) = some (.ok (t, ([] : List Nat))) ∧
      (1950 ≤ 2017 → 2017 ≤ 2049 →
        Time.from_der (utcTimeDer 2017 4 17 17 12 42) = some (.ok (t, ([] : List Nat)))) :=
  C2_round_trip_time_parsing.1 2017 4 17 17 12 42 30 (by omega) (by omega) (by omega)
    (by omega) rfl (by omega) (by omega) (by omega) (by omega) (by omega)

/-- C4: every pre-epoch year makes time_from_ymdhms_utc (and hence any
parse reaching it) fail with BadDerTime; in particular 1969-12-31
23:59:59, and every well-formed pre-epoch encoded time. -/
theorem C4_pre_epoch_rejection :
    (∀ y mo d hr mi s : Nat, y < 1970 →
      time_from_ymdhms_utc y mo d hr mi s = some (.error .BadDerTime)) ∧
    time_from_ymdhms_utc 1969 12 31 23 59 59 = some (.error .BadDerTime) ∧
    (∀ y mo d hr mi s dim : Nat, y < 1970 → 1 ≤ mo → mo ≤ 12 →
      days_in_month y mo = some dim → 1 ≤ d → d ≤ dim → hr ≤ 23 → mi ≤ 59 → s ≤ 59 →
      Time.from_der (genTimeDer y mo d hr mi s) = some (.error .BadDerTime) ∧
      (1950 ≤ y →
        Time.from_der (utcTimeDer y mo d hr mi s) = some (.error .BadDerTime))) := by
  have h1 : ∀ y mo d hr mi s : Nat, y < 1970 →
      time_from_ymdhms_utc y mo d hr mi s = some (.error .BadDerTime) := by
    intro y mo d hr mi s hy
    unfold time_from_ymdhms_utc days_before_year_since_unix_epoch UNIX_EPOCH_YEAR
    rw [if_pos hy]
  refine ⟨h1, h1 1969 12 31 23 59 59 (by omega), ?_⟩
  intro y mo d hr mi s dim hy hmo1 hmo2 hdim hd1 hd2 hhr hmi hs
  constructor
  · rw [from_der_genTime y mo d hr mi s (by omega) hmo1 hmo2 hdim hd1 hd2 hhr hmi hs,
      h1 y mo d hr mi s hy]
    simp [Except.map]
  · intro hy50
    rw [from_der_utcTime y mo d hr mi s hy50 (by omega) hmo1 hmo2 hdim hd1 hd2 hhr hmi hs,
      h1 y mo d hr mi s hy]
    simp [Except.map]

/-- Witness for C4 at 1969-12-31 23:59:59 in direct conversion and in both
encodings. -/
theorem C4_witness :
    time_from_ymdhms_utc 1969 12 31 23 59 59 = some (.error .BadDerTime) ∧
    Time.from_der (genTimeDer 1969 12 31 23 59 59) = some (.error .BadDerTime) ∧
    Time.from_der (utcTimeDer 1969 12 31 23 59 59) = some (.error .BadDerTime) := by
  refine ⟨C4_pre_epoch_rejection.1 1969 12 31 23 59 59 (by omega), ?_, ?_⟩
  · exact (C4_pre_epoch_rejection.2.2 1969 12 31 23 59 59 31 (by omega) (by omega)
      (by omega) rfl (by omega) (by omega) (by omega) (by omega) (by omega)).1
  · exact (C4_pre_epoch_rejection.2.2 1969 12 31 23 59 59 31 (by omega) (by omega)
      (by omega) rfl (by omega) (by omega) (by omega) (by omega) (by omega)).2 (by omega)

/-- C5: the time-value parse is total, every failure is BadDerTime, and a
success forces every two-digit field to be in range (month 1-12, day up to
days_in_month, hour to 23, minute and second to 59), every character to be
an ASCII digit, and the timezone byte to be Z; so any input violating one
of these (including fractional seconds) fails with BadDerTime. -/
theorem C5_time_value_characterization :
    (∀ b : Bool, ∀ bs : List Nat, (readTimeValue b bs).isSome) ∧
    (∀ b : Bool, ∀ bs : List Nat, ∀ e : Error,
      readTimeValue b bs = some (.error e) → e = .BadDerTime) ∧
    (∀ b : Bool, ∀ bs : List Nat, ∀ t : Time, ∀ rest : List Nat,
      readTimeValue b bs = some (.ok (t, rest)) →
      ∃ yh yl mo d hr mi s dim : Nat,
        bs = fieldBytes b yh yl mo d hr mi s ++ rest ∧
        yh ≤ 99 ∧ yl ≤ 99 ∧
        (b = true → yh = (if 50 ≤ yl then 19 else 20)) ∧
        1 ≤ mo ∧ mo ≤ 12 ∧
        days_in_month (yh * 100 + yl) mo = some dim ∧
        1 ≤ d ∧ d ≤ dim ∧ hr ≤ 23 ∧ mi ≤ 59 ∧ s ≤ 59 ∧
        time_from_ymdhms_utc (yh * 100 + yl) mo d hr mi s = some (.ok t)) :=
  ⟨readTimeValue_isSome, fun _ _ _ h => readTimeValue_error h,
   fun _ _ _ _ h => readTimeValue_ok h⟩

/-- Witness for C5: the empty value fails with BadDerTime, and the
well-formed value 19700101000000Z parses with all fields characterized. -/
theorem C5_witness :
    Error.BadDerTime = Error.BadDerTime ∧
    (∃ yh yl mo d hr mi s dim : Nat,
      fieldBytes false 19 70 1 1 0 0 0 = fieldBytes false yh yl mo d hr mi s ++ ([] : List Nat) ∧
      yh ≤ 99 ∧ yl ≤ 99 ∧
      (false = true → yh = (if 50 ≤ yl then 19 else 20)) ∧
      1 ≤ mo ∧ mo ≤ 12 ∧
      days_in_month (yh * 100 + yl) mo = some dim ∧
      1 ≤ d ∧ d ≤ dim ∧ hr ≤ 23 ∧ mi ≤ 59 ∧ s ≤ 59 ∧
      time_from_ymdhms_utc (yh * 100 + yl) mo d hr mi s = some (.ok ⟨0⟩)) :=
  ⟨C5_time_value_characterization.2.1 false [] .BadDerTime rfl,
   C5_time_value_characterization.2.2 false (fieldBytes false 19 70 1 1 0 0 0) ⟨0⟩ [] rfl⟩

/-- C9: with civil fields in range and a year in 1970-9999,
time_from_ymdhms_utc returns Ok; and whenever it returns an error, the
year was pre-epoch and the error is BadDerTime. -/
theorem C9_time_from_ok_err_characterization :
    (∀ y mo d hr mi s dim : Nat, 1970 ≤ y → y ≤ 9999 → 1 ≤ mo → mo ≤ 12 →
      days_in_month y mo = some dim → 1 ≤ d → d ≤ dim → hr ≤ 23 → mi ≤ 59 → s ≤ 59 →
      ∃ t : Time, time_from_ymdhms_utc y mo d hr mi s = some (.ok t)) ∧
    (∀ y mo d hr mi s : Nat, ∀ e : Error,
      time_from_ymdhms_utc y mo d hr mi s = some (.error e) →
      y < 1970 ∧ e = .BadDerTime) :=
  ⟨fun y mo d hr mi s _ hy _ hmo1 hmo2 _ _ _ _ _ _ =>
     time_from_ymdhms_utc_ok d hr mi s hy hmo1 hmo2,
   fun _ _ _ _ _ _ _ h => time_from_ymdhms_utc_error h⟩

/-- Witness for C9 at a leap-day Ok case and the pre-epoch error case. -/
theorem C9_witness :
    (∃ t : Time, time_from_ymdhms_utc 2016 2 29 23 59 59 = some (.ok t)) ∧
    (1969 < 1970 ∧ Error.BadDerTime = Error.BadDerTime) :=
  ⟨C9_time_from_ok_err_characterization.1 2016 2 29 23 59 59 29 (by omega) (by omega)
     (by omega) (by omega) rfl (by omega) (by omega) (by omega) (by omega) (by omega),
   C9_time_from_ok_err_characterization.2 1969 1 1 0 0 0 .BadDerTime rfl⟩

/-- C10: the unreachable month-dispatch arms of days_in_month and
time_from_ymdhms_utc are never taken for months 1-12, and DER time parsing
is total on every input, so it never panics. -/
theorem C10_parsing_never_panics :
    (∀ y mo : Nat, 1 ≤ mo → mo ≤ 12 → (days_in_month y mo).isSome) ∧
    (∀ y mo d hr mi s : Nat, 1 ≤ mo → mo ≤ 12 →
      (time_from_ymdhms_utc y mo d hr mi s).isSome) ∧
    (∀ bs : List Nat, (Time.from_der bs).isSome) := by
  refine ⟨?_, ?_, ?_⟩
  · intro y mo h1 h2
    obtain ⟨dim, hdim⟩ := days_in_month_isSome y h1 h2
    rw [hdim]
    rfl
  · intro y mo d hr mi s h1 h2
    exact time_from_ymdhms_utc_isSome y d hr mi s h1 h2
  · intro bs
    exact der_nested_isSome _ _ (readTimeValue_isSome _) bs

/-- Witness for C10 at February 2017 and a full parse. -/
theorem C10_witness :
    (days_in_month 2017 2).isSome ∧
    (time_from_ymdhms_utc 2017 2 28 0 0 0).isSome ∧
    (Time.from_der (genTimeDer 2017 2 28 0 0 0)).isSome :=
  ⟨C10_parsing_never_panics.1 2017 2 (by omega) (by omega),
   C10_parsing_never_panics.2.1 2017 2 28 0 0 0 (by omega) (by omega),
   C10_parsing_never_panics.2.2 (genTimeDer 2017 2 28 0 0 0)⟩

end Webpki
